import Mathlib

/-!
Verification of the clawnvas signaling server core
(src/signaling-server/src/routes.ts and src/signaling-server/src/websocket.ts)
against its natural-language specification.

The embedding is shallow: the in-memory `nodes` map and the `clients` map are
association lists, JWTs are modelled symbolically as a payload paired with a
MAC over (secret, payload), and every handler is a pure function from state to
(state, list of websocket messages sent).  Time is an explicit `Nat` parameter
(seconds), matching the code's `Date.now()` / token expiry comparisons.
-/

namespace Clawnvas

/-- Node status, the `'active' | 'revoked'` union in routes.ts. -/
inductive Status where
  | active
  | revoked
deriving DecidableEq, Repr

/-- Connection role, the `'publisher' | 'viewer'` union in websocket.ts. -/
inductive Role where
  | publisher
  | viewer
deriving DecidableEq, Repr

/-- JWT payload as signed by routes.ts: `{ type, nodeId, projectId }` plus the
issued-at and expiry timestamps that `jsonwebtoken` adds for `expiresIn`. -/
structure Claims where
  type : String
  nodeId : String
  projectId : String
  iat : Nat
  exp : Nat
deriving DecidableEq, Repr

/-- A signed JWT, modelled symbolically: the payload together with a MAC that
is an injective function of (secret, payload). -/
structure Token where
  claims : Claims
  mac : String × Claims
deriving DecidableEq, Repr

/-- TOKEN_EXPIRY = '15m' (routes.ts), in seconds. -/
def tokenLifetime : Nat := 900

/-- jwt.sign(payload, secret, { expiresIn: TOKEN_EXPIRY }). -/
def jwtSign (secret : String) (c : Claims) : Token :=
  ⟨c, (secret, c)⟩

/-- jwt.verify(token, secret) at clock time `now`: succeeds with the decoded
payload iff the MAC matches the secret and the token has not expired
(jsonwebtoken rejects when `now ≥ exp`). -/
def jwtVerify (secret : String) (now : Nat) (t : Token) : Option Claims :=
  if t.mac = (secret, t.claims) ∧ now < t.claims.exp then some t.claims else none

/-- One record of the in-memory `nodes` map (routes.ts). -/
structure Node where
  nodeId : String
  projectId : String
  ownerToken : Token
  status : Status
  viewerCount : Nat
  createdAt : Nat
deriving DecidableEq, Repr

/-- Websocket connection identifier (a `WebSocket` object identity). -/
abbrev ConnId := Nat

/-- The `Client` record of websocket.ts: the optional (node, role, token)
binding of one live connection. -/
structure Client where
  nodeId : Option String
  type : Option Role
  token : Option Token
deriving DecidableEq, Repr

/-- Association-list lookup, modelling `Map.get`. -/
def alookup {α β : Type} [DecidableEq α] (k : α) : List (α × β) → Option β
  | [] => none
  | (k', v) :: rest => if k' = k then some v else alookup k rest

/-- Association-list update, modelling `Map.set` (in-place update of an
existing key, append otherwise, preserving JS `Map` iteration order). -/
def aset {α β : Type} [DecidableEq α] (k : α) (v : β) : List (α × β) → List (α × β)
  | [] => [(k, v)]
  | (k', v') :: rest => if k' = k then (k, v) :: rest else (k', v') :: aset k v rest

/-- Association-list removal, modelling `Map.delete`. -/
def aerase {α β : Type} [DecidableEq α] (k : α) : List (α × β) → List (α × β)
  | [] => []
  | (k', v') :: rest => if k' = k then rest else (k', v') :: aerase k rest

/-- The whole mutable state of the server process: the `nodes` map of
routes.ts and the `clients` map of websocket.ts. -/
structure ServerState where
  nodes : List (String × Node)
  clients : List (ConnId × Client)
deriving DecidableEq, Repr

/-- The empty process state. -/
def initState : ServerState := ⟨[], []⟩

/-- Client→server message kinds of the signaling channel (the parsed JSON of
websocket.ts `handleMessage`). -/
inductive ClientMsg where
  | publish (nodeId : String) (ownerToken : Token)
  | join (nodeId : String) (viewerToken : Token)
  | offer (nodeId : String) (payload : String)
  | answer (nodeId : String) (payload : String)
  | ice (nodeId : String) (payload : String)
  | ping
  | heartbeat (nodeId : String) (payload : String)
deriving DecidableEq, Repr

/-- Server→client message kinds of the signaling channel. `relay` is an
inbound negotiation message forwarded verbatim (the code re-sends the parsed
`data` object untouched). -/
inductive ServerMsg where
  | error (message : String)
  | connected (role : String)
  | viewerCount (nodeId : String) (count : Nat)
  | joinNotify (viewerToken : Token)
  | relay (data : ClientMsg)
  | heartbeat (nodeId : String) (timestamp : Nat) (payload : String)
  | pong (timestamp : Nat)
deriving DecidableEq, Repr

/-- The boolean filter of `broadcastToNode`: same node, not the excluded
socket, and (when a target type is given) exactly that bound type. -/
def broadcastTargets (nodeId : String) (targetType : Option Role)
    (excludeWs : Option ConnId) (p : ConnId × Client) : Bool :=
  decide (p.2.nodeId = some nodeId) &&
  decide (some p.1 ≠ excludeWs) &&
  (decide (targetType = none) || decide (p.2.type = targetType))

/-- websocket.ts `broadcastToNode`: send `message` to every client of the map
bound to `nodeId` (optionally filtered to one role, optionally excluding one
socket).  Every connection in the model is open. -/
def broadcastToNode (clients : List (ConnId × Client)) (nodeId : String)
    (message : ServerMsg) (targetType : Option Role) (excludeWs : Option ConnId) :
    List (ConnId × ServerMsg) :=
  (clients.filter (broadcastTargets nodeId targetType excludeWs)).map
    (fun p => (p.1, message))

/-- websocket.ts `handlePublish`: verify the owner token (signature, expiry,
role owner, matching nodeId); on success bind the connection as publisher and
acknowledge, otherwise report an invalid-token error.  No registry lookup. -/
def handlePublish (secret : String) (now : Nat) (ws : ConnId) (st : ServerState)
    (nodeId : String) (ownerToken : Token) : ServerState × List (ConnId × ServerMsg) :=
  match jwtVerify secret now ownerToken with
  | some decoded =>
    if decoded.type = "owner" ∧ decoded.nodeId = nodeId then
      ({ st with clients := aset ws ⟨some nodeId, some Role.publisher, some ownerToken⟩ st.clients },
       [(ws, ServerMsg.connected "publisher")])
    else
      (st, [(ws, ServerMsg.error "Invalid owner token")])
  | none => (st, [(ws, ServerMsg.error "Invalid owner token")])

/-- websocket.ts `handleJoin`: verify the viewer token; look the node up and
reject missing or revoked nodes with one shared message; enforce the viewer
cap of 3; otherwise increment the count, bind the connection as viewer,
acknowledge, and notify the publisher with a viewer-count event and a join
notification. -/
def handleJoin (secret : String) (now : Nat) (ws : ConnId) (st : ServerState)
    (nodeId : String) (viewerToken : Token) : ServerState × List (ConnId × ServerMsg) :=
  match jwtVerify secret now viewerToken with
  | some decoded =>
    if decoded.type = "viewer" ∧ decoded.nodeId = nodeId then
      match alookup nodeId st.nodes with
      | none => (st, [(ws, ServerMsg.error "Node not available")])
      | some node =>
        if node.status = Status.revoked then
          (st, [(ws, ServerMsg.error "Node not available")])
        else if node.viewerCount ≥ 3 then
          (st, [(ws, ServerMsg.error "Max viewers reached")])
        else
          let node' := { node with viewerCount := node.viewerCount + 1 }
          let clients' := aset ws ⟨some nodeId, some Role.viewer, some viewerToken⟩ st.clients
          (⟨aset nodeId node' st.nodes, clients'⟩,
           (ws, ServerMsg.connected "viewer") ::
           broadcastToNode clients' nodeId
             (ServerMsg.viewerCount nodeId node'.viewerCount) (some Role.publisher) none ++
           broadcastToNode clients' nodeId
             (ServerMsg.joinNotify viewerToken) (some Role.publisher) none)
    else
      (st, [(ws, ServerMsg.error "Invalid viewer token")])
  | none => (st, [(ws, ServerMsg.error "Invalid viewer token")])

/-- websocket.ts `relayMessage`: a bound sender's offer/answer/ice is
forwarded verbatim to the opposite role of its own node, excluding the
sender; an unbound sender gets a not-registered error. -/
def relayMessage (ws : ConnId) (st : ServerState) (data : ClientMsg) :
    ServerState × List (ConnId × ServerMsg) :=
  match alookup ws st.clients with
  | none => (st, [(ws, ServerMsg.error "Not registered")])
  | some client =>
    match client.nodeId with
    | none => (st, [(ws, ServerMsg.error "Not registered")])
    | some nid =>
      let targetType := if client.type = some Role.publisher then Role.viewer else Role.publisher
      (st, broadcastToNode st.clients nid (ServerMsg.relay data) (some targetType) (some ws))

/-- websocket.ts `handleHeartbeat`: only a bound publisher may send one; it is
broadcast to all viewers of the sender's bound node, stamped with the server
clock; nothing is stored. -/
def handleHeartbeat (now : Nat) (ws : ConnId) (client : Client) (st : ServerState)
    (payload : String) : ServerState × List (ConnId × ServerMsg) :=
  match client.nodeId, client.type with
  | some nid, some Role.publisher =>
    (st, broadcastToNode st.clients nid
      (ServerMsg.heartbeat nid now payload) (some Role.viewer) none)
  | _, _ => (st, [(ws, ServerMsg.error "Only publishers can send heartbeats")])

/-- websocket.ts `handleMessage`: dispatch on the parsed message type; a
socket with no `clients` entry is ignored. -/
def handleMessage (secret : String) (now : Nat) (ws : ConnId) (st : ServerState)
    (data : ClientMsg) : ServerState × List (ConnId × ServerMsg) :=
  match alookup ws st.clients with
  | none => (st, [])
  | some client =>
    match data with
    | ClientMsg.publish nodeId tok => handlePublish secret now ws st nodeId tok
    | ClientMsg.join nodeId tok => handleJoin secret now ws st nodeId tok
    | ClientMsg.offer _ _ => relayMessage ws st data
    | ClientMsg.answer _ _ => relayMessage ws st data
    | ClientMsg.ice _ _ => relayMessage ws st data
    | ClientMsg.ping => (st, [(ws, ServerMsg.pong now)])
    | ClientMsg.heartbeat _ payload => handleHeartbeat now ws client st payload

/-- websocket.ts connection handler: a new socket gets an unbound `clients`
entry. -/
def connectClient (ws : ConnId) (st : ServerState) : ServerState :=
  { st with clients := aset ws ⟨none, none, none⟩ st.clients }

/-- websocket.ts `handleDisconnect`: a closing viewer-bound connection
decrements its node's count (floor-clamped at zero by `Math.max`, which Nat
subtraction mirrors) and the new count is broadcast to the publisher; any
closing connection is removed from the map.  The broadcast iterates the map
before the deletion, as in the code. -/
def handleDisconnect (ws : ConnId) (st : ServerState) :
    ServerState × List (ConnId × ServerMsg) :=
  match alookup ws st.clients with
  | some client =>
    match client.nodeId, client.type with
    | some nid, some Role.viewer =>
      match alookup nid st.nodes with
      | some node =>
        let node' := { node with viewerCount := node.viewerCount - 1 }
        (⟨aset nid node' st.nodes, aerase ws st.clients⟩,
         broadcastToNode st.clients nid
           (ServerMsg.viewerCount nid node'.viewerCount) (some Role.publisher) none)
      | none => ({ st with clients := aerase ws st.clients }, [])
    | _, _ => ({ st with clients := aerase ws st.clients }, [])
  | none => ({ st with clients := aerase ws st.clients }, [])

/-- routes.ts POST /nodes: allocate the node record (uuid passed in), sign the
owner token, insert the active node with viewerCount 0. -/
def createNode (secret : String) (now : Nat) (nodeId : String) (projectId : String)
    (st : ServerState) : ServerState × Token :=
  let ownerToken := jwtSign secret ⟨"owner", nodeId, projectId, now, now + tokenLifetime⟩
  ({ st with nodes := aset nodeId ⟨nodeId, projectId, ownerToken, Status.active, 0, now⟩ st.nodes },
   ownerToken)

/-- Outcome of POST /nodes/:nodeId/viewer-token. -/
inductive MintResult where
  | notFound
  | nodeRevoked
  | maxViewers
  | ok (viewerToken : Token)
deriving DecidableEq, Repr

/-- routes.ts POST /nodes/:nodeId/viewer-token: 404 when missing, 403 when
revoked, 403 when at capacity, otherwise sign a fresh viewer token. -/
def mintViewerToken (secret : String) (now : Nat) (st : ServerState) (nodeId : String) :
    MintResult :=
  match alookup nodeId st.nodes with
  | none => MintResult.notFound
  | some node =>
    if node.status = Status.revoked then MintResult.nodeRevoked
    else if node.viewerCount ≥ 3 then MintResult.maxViewers
    else MintResult.ok (jwtSign secret ⟨"viewer", nodeId, node.projectId, now, now + tokenLifetime⟩)

/-- Outcome of POST /nodes/:nodeId/revoke. -/
inductive RevokeResult where
  | notFound
  | success
deriving DecidableEq, Repr

/-- routes.ts POST /nodes/:nodeId/revoke: 404 when missing, otherwise set the
status to revoked and answer success.  The third component is the list of
websocket messages the route sends, which is empty: the route only mutates
the registry. -/
def revokeNode (st : ServerState) (nodeId : String) :
    ServerState × RevokeResult × List (ConnId × ServerMsg) :=
  match alookup nodeId st.nodes with
  | none => (st, RevokeResult.notFound, [])
  | some node =>
    (⟨aset nodeId { node with status := Status.revoked } st.nodes, st.clients⟩,
     RevokeResult.success, [])

/-- One externally driven event of the running process. -/
inductive Event where
  | connect (ws : ConnId)
  | message (now : Nat) (ws : ConnId) (data : ClientMsg)
  | close (ws : ConnId)
  | httpCreate (now : Nat) (nodeId : String) (projectId : String)
  | httpRevoke (nodeId : String)
deriving DecidableEq, Repr

/-- State transition of one event (messages sent are dropped here). -/
def stepEv (secret : String) (st : ServerState) : Event → ServerState
  | Event.connect ws => connectClient ws st
  | Event.message now ws data => (handleMessage secret now ws st data).1
  | Event.close ws => (handleDisconnect ws st).1
  | Event.httpCreate now nid pid => (createNode secret now nid pid st).1
  | Event.httpRevoke nid => (revokeNode st nid).1

/-- Run a list of events from a state. -/
def runEvents (secret : String) (st : ServerState) : List Event → ServerState
  | [] => st
  | e :: rest => runEvents secret (stepEv secret st e) rest

/-- The number of connections currently bound to `nid` with the viewer role. -/
def isViewerOf (nid : String) (p : ConnId × Client) : Bool :=
  decide (p.2.nodeId = some nid ∧ p.2.type = some Role.viewer)

/-- Count of viewer-bound connections of a node. -/
def countViewers (clients : List (ConnId × Client)) (nid : String) : Nat :=
  clients.countP (isViewerOf nid)

/-- The opposite of a bound role, publisher↔viewer. -/
def opposite : Role → Role
  | Role.publisher => Role.viewer
  | Role.viewer => Role.publisher

/-! ### Concrete fixtures (the code's default secret and a bound session) -/

/-- The default JWT_SECRET of the code. -/
def devSecret : String := "dev-secret-change-in-production"

/-- An owner token exactly as POST /nodes signs it at time t. -/
def ownerTok (nid pid : String) (t : Nat) : Token :=
  jwtSign devSecret ⟨"owner", nid, pid, t, t + tokenLifetime⟩

/-- A viewer token exactly as POST /nodes/:nodeId/viewer-token signs it at time t. -/
def viewerTok (nid pid : String) (t : Nat) : Token :=
  jwtSign devSecret ⟨"viewer", nid, pid, t, t + tokenLifetime⟩

/-- A reachable state: node n1 of project p1 created at time 0, connection 1
bound as its publisher, connection 2 bound as its (only) viewer. -/
def boundState : ServerState :=
  runEvents devSecret initState
    [Event.httpCreate 0 "n1" "p1",
     Event.connect 1, Event.message 5 1 (ClientMsg.publish "n1" (ownerTok "n1" "p1" 0)),
     Event.connect 2, Event.message 5 2 (ClientMsg.join "n1" (viewerTok "n1" "p1" 0))]

/-- A reachable state: node n1 with a bound publisher (connection 1) and three
bound viewers (connections 2, 3, 4), so the node is at viewer capacity. -/
def capState : ServerState :=
  runEvents devSecret initState
    [Event.httpCreate 0 "n1" "p1",
     Event.connect 1, Event.message 5 1 (ClientMsg.publish "n1" (ownerTok "n1" "p1" 0)),
     Event.connect 2, Event.message 5 2 (ClientMsg.join "n1" (viewerTok "n1" "p1" 0)),
     Event.connect 3, Event.message 6 3 (ClientMsg.join "n1" (viewerTok "n1" "p1" 1)),
     Event.connect 4, Event.message 7 4 (ClientMsg.join "n1" (viewerTok "n1" "p1" 2))]

/-- The offer/answer/ice message kinds, the relay cases of handleMessage. -/
def isNegotiation : ClientMsg → Bool
  | ClientMsg.offer _ _ => true
  | ClientMsg.answer _ _ => true
  | ClientMsg.ice _ _ => true
  | _ => false

/-- Every registered node's viewerCount is at most 3. -/
def CapOk (st : ServerState) : Prop :=
  ∀ nid node, alookup nid st.nodes = some node → node.viewerCount ≤ 3

/-- The event list that builds capState. -/
def capTrace : List Event :=
  [Event.httpCreate 0 "n1" "p1",
   Event.connect 1, Event.message 5 1 (ClientMsg.publish "n1" (ownerTok "n1" "p1" 0)),
   Event.connect 2, Event.message 5 2 (ClientMsg.join "n1" (viewerTok "n1" "p1" 0)),
   Event.connect 3, Event.message 6 3 (ClientMsg.join "n1" (viewerTok "n1" "p1" 1)),
   Event.connect 4, Event.message 7 4 (ClientMsg.join "n1" (viewerTok "n1" "p1" 2))]

/-- The state just before the first viewer join of the capacity scenario. -/
def preJoin1 : ServerState :=
  runEvents devSecret initState
    [Event.httpCreate 0 "n1" "p1",
     Event.connect 1, Event.message 5 1 (ClientMsg.publish "n1" (ownerTok "n1" "p1" 0)),
     Event.connect 2]

/-- After the first join succeeded, connection 3 is about to join. -/
def preJoin2 : ServerState :=
  connectClient 3
    (handleMessage devSecret 5 2 preJoin1 (ClientMsg.join "n1" (viewerTok "n1" "p1" 0))).1

/-- After the second join succeeded, connection 4 is about to join. -/
def preJoin3 : ServerState :=
  connectClient 4
    (handleMessage devSecret 6 3 preJoin2 (ClientMsg.join "n1" (viewerTok "n1" "p1" 1))).1

/-- A state whose node z has viewerCount 0 while a viewer-bound connection 8
closes, exhibiting the floor clamp of the decrement. -/
def zeroState : ServerState :=
  ⟨[("z", { nodeId := "z", projectId := "p", ownerToken := ownerTok "z" "p" 0,
            status := Status.active, viewerCount := 0, createdAt := 0 })],
   [(8, ⟨some "z", some Role.viewer, some (viewerTok "z" "p" 0)⟩)]⟩

/-- A reachable state in which connection 2, already bound as viewer of n1,
sends a second join for n1: the code increments the count again while the set
of bound viewer connections stays the same. -/
def doubleJoinState : ServerState :=
  runEvents devSecret initState
    [Event.httpCreate 0 "n1" "p1",
     Event.connect 1, Event.message 5 1 (ClientMsg.publish "n1" (ownerTok "n1" "p1" 0)),
     Event.connect 2, Event.message 5 2 (ClientMsg.join "n1" (viewerTok "n1" "p1" 0)),
     Event.message 6 2 (ClientMsg.join "n1" (viewerTok "n1" "p1" 1))]

/-- Discipline on events under which the claimed synchrony does hold: a new
socket has a fresh identity, a publish or join is only sent on a connection
that is not yet bound, and node creation uses a fresh uuid.  Messages other
than bind messages, closes and revokes are unrestricted. -/
def okEvent (st : ServerState) : Event → Prop
  | Event.connect ws => alookup ws st.clients = none
  | Event.message _ ws data =>
    match data with
    | ClientMsg.publish _ _ => ∀ c, alookup ws st.clients = some c → c.nodeId = none
    | ClientMsg.join _ _ => ∀ c, alookup ws st.clients = some c → c.nodeId = none
    | _ => True
  | Event.close _ => True
  | Event.httpCreate _ nid _ => alookup nid st.nodes = none
  | Event.httpRevoke _ => True

/-- States reachable from the empty server state by disciplined events. -/
inductive ReachableOk (secret : String) : ServerState → Prop where
  | base : ReachableOk secret initState
  | step (st : ServerState) (e : Event) (h : ReachableOk secret st)
      (hok : okEvent st e) : ReachableOk secret (stepEv secret st e)

/-- The inductive invariant: client and node keys are distinct, every bound
viewer's node is registered, and every node's count equals its number of
bound viewer connections. -/
structure SyncInv (st : ServerState) : Prop where
  clientsNodup : (st.clients.map Prod.fst).Nodup
  nodesNodup : (st.nodes.map Prod.fst).Nodup
  viewerHasNode : ∀ ws c nid, alookup ws st.clients = some c → c.nodeId = some nid →
    c.type = some Role.viewer → ∃ node, alookup nid st.nodes = some node
  countSync : ∀ nid node, alookup nid st.nodes = some node →
    node.viewerCount = countViewers st.clients nid

/-! ### Association-list lemmas -/

theorem alookup_aset {α β : Type} [DecidableEq α] (k q : α) (v : β) (l : List (α × β)) :
    alookup q (aset k v l) = if q = k then some v else alookup q l := by
  induction l with
  | nil =>
    by_cases h : q = k
    · subst h; simp [aset, alookup]
    · have h' : ¬ k = q := fun hh => h hh.symm
      simp [aset, alookup, h, h']
  | cons hd rest ih =>
    obtain ⟨a1, a2⟩ := hd
    by_cases h1 : a1 = k
    · subst h1
      by_cases h2 : q = a1
      · subst h2; simp [aset, alookup]
      · have h2' : ¬ a1 = q := fun hh => h2 hh.symm
        simp [aset, alookup, h2, h2']
    · by_cases h2 : a1 = q
      · subst h2
        simp [aset, alookup, h1]
      · simp [aset, alookup, h1, h2, ih]

theorem mem_of_alookup {α β : Type} [DecidableEq α] {k : α} {v : β} {l : List (α × β)}
    (h : alookup k l = some v) : (k, v) ∈ l := by
  induction l with
  | nil => simp [alookup] at h
  | cons hd rest ih =>
    obtain ⟨a1, a2⟩ := hd
    by_cases h1 : a1 = k
    · subst h1
      simp [alookup] at h
      simp [h]
    · simp [alookup, h1] at h
      exact List.mem_cons_of_mem _ (ih h)

theorem alookup_of_mem {α β : Type} [DecidableEq α] {k : α} {v : β} {l : List (α × β)}
    (hnd : (l.map Prod.fst).Nodup) (h : (k, v) ∈ l) : alookup k l = some v := by
  induction l with
  | nil => simp at h
  | cons hd rest ih =>
    obtain ⟨a1, a2⟩ := hd
    rw [List.map_cons, List.nodup_cons] at hnd
    rcases List.mem_cons.mp h with heq | hmem
    · cases heq
      simp [alookup]
    · have hne : a1 ≠ k := by
        intro hk
        subst hk
        exact hnd.1 (List.mem_map.mpr ⟨(a1, v), hmem, rfl⟩)
      simp [alookup, hne]
      exact ih hnd.2 hmem

theorem aset_eq_append {α β : Type} [DecidableEq α] {k : α} (v : β) {l : List (α × β)}
    (h : alookup k l = none) : aset k v l = l ++ [(k, v)] := by
  induction l with
  | nil => simp [aset]
  | cons hd rest ih =>
    obtain ⟨a1, a2⟩ := hd
    by_cases h1 : a1 = k
    · subst h1; simp [alookup] at h
    · simp [alookup, h1] at h
      simp [aset, h1, ih h]

theorem aerase_eq_self {α β : Type} [DecidableEq α] {k : α} {l : List (α × β)}
    (h : alookup k l = none) : aerase k l = l := by
  induction l with
  | nil => simp [aerase]
  | cons hd rest ih =>
    obtain ⟨a1, a2⟩ := hd
    by_cases h1 : a1 = k
    · subst h1; simp [alookup] at h
    · simp [alookup, h1] at h
      simp [aerase, h1, ih h]

theorem alookup_aerase {α β : Type} [DecidableEq α] (k q : α) {l : List (α × β)}
    (hnd : (l.map Prod.fst).Nodup) :
    alookup q (aerase k l) = if q = k then none else alookup q l := by
  induction l with
  | nil => simp [aerase, alookup]
  | cons hd rest ih =>
    obtain ⟨a1, a2⟩ := hd
    rw [List.map_cons, List.nodup_cons] at hnd
    by_cases h1 : a1 = k
    · subst h1
      by_cases h2 : q = a1
      · subst h2
        have : alookup q rest = none := by
          cases hq : alookup q rest with
          | none => rfl
          | some v =>
            exact absurd (List.mem_map.mpr ⟨(q, v), mem_of_alookup hq, rfl⟩) hnd.1
        simp [aerase, alookup, this]
      · have h2' : ¬ a1 = q := fun hh => h2 hh.symm
        simp [aerase, alookup, h2, h2']
    · by_cases h2 : a1 = q
      · subst h2
        simp [aerase, alookup, h1]
      · simp [aerase, alookup, h1, h2, ih hnd.2]

theorem mem_keys_aset {α β : Type} [DecidableEq α] (k q : α) (v : β) (l : List (α × β)) :
    q ∈ (aset k v l).map Prod.fst ↔ q = k ∨ q ∈ l.map Prod.fst := by
  induction l with
  | nil => simp [aset]
  | cons hd rest ih =>
    obtain ⟨a1, a2⟩ := hd
    by_cases h1 : a1 = k
    · subst h1; simp [aset]
    · simp only [aset, if_neg h1, List.map_cons, List.mem_cons, ih]
      tauto

theorem nodupKeys_aset {α β : Type} [DecidableEq α] (k : α) (v : β) {l : List (α × β)}
    (hnd : (l.map Prod.fst).Nodup) : ((aset k v l).map Prod.fst).Nodup := by
  induction l with
  | nil => simp [aset]
  | cons hd rest ih =>
    obtain ⟨a1, a2⟩ := hd
    rw [List.map_cons, List.nodup_cons] at hnd
    by_cases h1 : a1 = k
    · subst h1
      rw [aset, if_pos rfl, List.map_cons, List.nodup_cons]
      exact hnd
    · rw [aset, if_neg h1, List.map_cons, List.nodup_cons]
      refine ⟨?_, ih hnd.2⟩
      intro hmem
      rcases (mem_keys_aset k a1 v rest).mp hmem with h | h
      · exact h1 h
      · exact hnd.1 h

theorem mem_keys_aerase {α β : Type} [DecidableEq α] (k q : α) (l : List (α × β)) :
    q ∈ (aerase k l).map Prod.fst → q ∈ l.map Prod.fst := by
  induction l with
  | nil => simp [aerase]
  | cons hd rest ih =>
    obtain ⟨a1, a2⟩ := hd
    by_cases h1 : a1 = k
    · subst h1
      rw [aerase, if_pos rfl]
      intro h
      exact List.mem_cons_of_mem _ h
    · rw [aerase, if_neg h1, List.map_cons]
      intro h
      rcases List.mem_cons.mp h with h | h
      · exact List.mem_cons.mpr (Or.inl h)
      · exact List.mem_cons_of_mem _ (ih h)

theorem nodupKeys_aerase {α β : Type} [DecidableEq α] (k : α) {l : List (α × β)}
    (hnd : (l.map Prod.fst).Nodup) : ((aerase k l).map Prod.fst).Nodup := by
  induction l with
  | nil => simp [aerase]
  | cons hd rest ih =>
    obtain ⟨a1, a2⟩ := hd
    rw [List.map_cons, List.nodup_cons] at hnd
    by_cases h1 : a1 = k
    · subst h1
      rw [aerase, if_pos rfl]
      exact hnd.2
    · rw [aerase, if_neg h1, List.map_cons, List.nodup_cons]
      exact ⟨fun hmem => hnd.1 (mem_keys_aerase k a1 rest hmem), ih hnd.2⟩

theorem countP_aset {α β : Type} [DecidableEq α] {k : α} {v0 : β} (v : β) (q : α × β → Bool)
    {l : List (α × β)} (h : alookup k l = some v0) :
    (aset k v l).countP q + (if q (k, v0) then 1 else 0) =
      l.countP q + (if q (k, v) then 1 else 0) := by
  induction l with
  | nil => simp [alookup] at h
  | cons hd rest ih =>
    obtain ⟨a1, a2⟩ := hd
    by_cases h1 : a1 = k
    · subst h1
      rw [alookup, if_pos rfl, Option.some_inj] at h
      subst h
      rw [aset, if_pos rfl, List.countP_cons, List.countP_cons]
      omega
    · rw [alookup, if_neg h1] at h
      rw [aset, if_neg h1, List.countP_cons, List.countP_cons]
      have := ih h
      omega

theorem countP_aerase {α β : Type} [DecidableEq α] {k : α} {v0 : β} (q : α × β → Bool)
    {l : List (α × β)} (h : alookup k l = some v0) :
    (aerase k l).countP q + (if q (k, v0) then 1 else 0) = l.countP q := by
  induction l with
  | nil => simp [alookup] at h
  | cons hd rest ih =>
    obtain ⟨a1, a2⟩ := hd
    by_cases h1 : a1 = k
    · subst h1
      rw [alookup, if_pos rfl, Option.some_inj] at h
      subst h
      rw [aerase, if_pos rfl, List.countP_cons]
    · rw [alookup, if_neg h1] at h
      rw [aerase, if_neg h1, List.countP_cons, List.countP_cons]
      have := ih h
      omega

/-! ### Handler characterization lemmas -/

theorem jwtVerify_jwtSign (secret : String) (now : Nat) (c : Claims) :
    jwtVerify secret now (jwtSign secret c) = if now < c.exp then some c else none := by
  simp [jwtVerify, jwtSign]

theorem handleMessage_publish (secret : String) (now : Nat) (ws : ConnId) (st : ServerState)
    (nid : String) (tok : Token) {c : Client} (hc : alookup ws st.clients = some c) :
    handleMessage secret now ws st (ClientMsg.publish nid tok) =
      handlePublish secret now ws st nid tok := by
  simp [handleMessage, hc]

theorem handleMessage_join (secret : String) (now : Nat) (ws : ConnId) (st : ServerState)
    (nid : String) (tok : Token) {c : Client} (hc : alookup ws st.clients = some c) :
    handleMessage secret now ws st (ClientMsg.join nid tok) =
      handleJoin secret now ws st nid tok := by
  simp [handleMessage, hc]

theorem handleMessage_heartbeat (secret : String) (now : Nat) (ws : ConnId) (st : ServerState)
    (nid : String) (payload : String) {c : Client} (hc : alookup ws st.clients = some c) :
    handleMessage secret now ws st (ClientMsg.heartbeat nid payload) =
      handleHeartbeat now ws c st payload := by
  simp [handleMessage, hc]

theorem handlePublish_success (secret : String) (now : Nat) (ws : ConnId) (st : ServerState)
    {nid : String} {tok : Token} {decoded : Claims}
    (hv : jwtVerify secret now tok = some decoded)
    (htype : decoded.type = "owner") (hnid : decoded.nodeId = nid) :
    handlePublish secret now ws st nid tok =
      ({ st with clients := aset ws ⟨some nid, some Role.publisher, some tok⟩ st.clients },
       [(ws, ServerMsg.connected "publisher")]) := by
  simp [handlePublish, hv, htype, hnid]

theorem handleJoin_state_missing_or_revoked (secret : String) (now : Nat) (ws : ConnId)
    (st : ServerState) (nid : String) (tok : Token)
    (hnode : alookup nid st.nodes = none ∨
      ∃ node, alookup nid st.nodes = some node ∧ node.status = Status.revoked) :
    (handleJoin secret now ws st nid tok).1 = st := by
  unfold handleJoin
  cases hv : jwtVerify secret now tok with
  | none => rfl
  | some decoded =>
    by_cases hm : decoded.type = "viewer" ∧ decoded.nodeId = nid
    · rcases hnode with hnone | ⟨node, hsome, hrev⟩
      · simp [hnone, hm]
      · simp [hsome, hm, hrev]
    · simp [hm]

theorem handleJoin_msg_missing_or_revoked (secret : String) (now : Nat) (ws : ConnId)
    (st : ServerState) (nid : String) (tok : Token) {decoded : Claims}
    (hv : jwtVerify secret now tok = some decoded)
    (htype : decoded.type = "viewer") (hnid : decoded.nodeId = nid)
    (hnode : alookup nid st.nodes = none ∨
      ∃ node, alookup nid st.nodes = some node ∧ node.status = Status.revoked) :
    (handleJoin secret now ws st nid tok).2 = [(ws, ServerMsg.error "Node not available")] := by
  unfold handleJoin
  rcases hnode with hnone | ⟨node, hsome, hrev⟩
  · simp [hv, htype, hnid, hnone]
  · simp [hv, htype, hnid, hsome, hrev]

theorem handleJoin_msg_capacity (secret : String) (now : Nat) (ws : ConnId)
    (st : ServerState) (nid : String) (tok : Token) {decoded : Claims} {node : Node}
    (hv : jwtVerify secret now tok = some decoded)
    (htype : decoded.type = "viewer") (hnid : decoded.nodeId = nid)
    (hsome : alookup nid st.nodes = some node) (hact : node.status ≠ Status.revoked)
    (hcap : 3 ≤ node.viewerCount) :
    handleJoin secret now ws st nid tok =
      (st, [(ws, ServerMsg.error "Max viewers reached")]) := by
  unfold handleJoin
  simp [hv, htype, hnid, hsome, hact, hcap]

/-! ### Claim theorems -/

/-- C1: failing input for the claimed revoke broadcast.  In the state with
node n1 active, a bound publisher (connection 1) and a bound viewer
(connection 2), the revoke route answers success, marks the node revoked,
leaves every connection untouched, and sends NO websocket message at all:
neither bound party receives a revoke event, because the route never calls
broadcastToNode.  A subsequent viewer-token mint does fail as claimed. -/
theorem C1_revoke_sends_no_broadcast :
    (revokeNode boundState "n1").2.1 = RevokeResult.success ∧
    alookup "n1" (revokeNode boundState "n1").1.nodes =
      some { nodeId := "n1", projectId := "p1", ownerToken := ownerTok "n1" "p1" 0,
             status := Status.revoked, viewerCount := 1, createdAt := 0 } ∧
    (revokeNode boundState "n1").2.2 = [] ∧
    (revokeNode boundState "n1").1.clients = boundState.clients ∧
    mintViewerToken devSecret 10 (revokeNode boundState "n1").1 "n1" =
      MintResult.nodeRevoked := by
  exact ⟨rfl, rfl, rfl, rfl, rfl⟩

/-- C2 counterexample: a publish bind succeeds although its nodeId names no
node in the registry.  With an empty registry, connection 1 presents a
correctly signed owner token for the nonexistent node ghost: the code
acknowledges connected(publisher) and binds the connection, refuting the
claim that every bind (publish included) requires an existing active node. -/
theorem C2_publish_binds_to_nonexistent_node :
    alookup "ghost" (connectClient 1 initState).nodes = none ∧
    (handleMessage devSecret 5 1 (connectClient 1 initState)
        (ClientMsg.publish "ghost" (ownerTok "ghost" "p1" 0))).2 =
      [(1, ServerMsg.connected "publisher")] ∧
    alookup 1 (handleMessage devSecret 5 1 (connectClient 1 initState)
        (ClientMsg.publish "ghost" (ownerTok "ghost" "p1" 0))).1.clients =
      some ⟨some "ghost", some Role.publisher, some (ownerTok "ghost" "p1" 0)⟩ := by
  exact ⟨rfl, rfl, rfl⟩

/-- C2 (amended): the node-exists-and-active check applies only to join.  A
join for a missing or revoked node leaves the whole state (bindings included)
unchanged, and when the viewer token verifies with matching role and nodeId
it reports an error to the joining connection; a publish whose owner token
verifies with matching role and nodeId binds the connection as publisher and
acknowledges without any registry lookup, so it succeeds even for a
nonexistent or revoked node. -/
theorem C2_amended_only_join_checks_registry
    (secret : String) (now : Nat) (ws : ConnId) (st : ServerState)
    (nid : String) (tok : Token) (c : Client)
    (hc : alookup ws st.clients = some c) :
    ((alookup nid st.nodes = none ∨
      (∃ node, alookup nid st.nodes = some node ∧ node.status = Status.revoked)) →
      (handleMessage secret now ws st (ClientMsg.join nid tok)).1 = st ∧
      (∀ decoded, jwtVerify secret now tok = some decoded → decoded.type = "viewer" →
        decoded.nodeId = nid →
        (handleMessage secret now ws st (ClientMsg.join nid tok)).2 =
          [(ws, ServerMsg.error "Node not available")])) ∧
    (∀ decoded, jwtVerify secret now tok = some decoded → decoded.type = "owner" →
      decoded.nodeId = nid →
      handleMessage secret now ws st (ClientMsg.publish nid tok) =
        ({ st with clients := aset ws ⟨some nid, some Role.publisher, some tok⟩ st.clients },
         [(ws, ServerMsg.connected "publisher")])) := by
  constructor
  · intro hnode
    constructor
    · rw [handleMessage_join secret now ws st nid tok hc]
      exact handleJoin_state_missing_or_revoked secret now ws st nid tok hnode
    · intro decoded hv htype hnid
      rw [handleMessage_join secret now ws st nid tok hc]
      exact handleJoin_msg_missing_or_revoked secret now ws st nid tok hv htype hnid hnode
  · intro decoded hv htype hnid
    rw [handleMessage_publish secret now ws st nid tok hc]
    exact handlePublish_success secret now ws st hv htype hnid

/-- C2 witness: instantiating the amended claim on a concrete revoked node;
the join attempt of connection 3 changes nothing. -/
theorem C2_amended_witness :
    (handleMessage devSecret 10 3 (connectClient 3 (revokeNode boundState "n1").1)
        (ClientMsg.join "n1" (viewerTok "n1" "p1" 0))).1 =
      connectClient 3 (revokeNode boundState "n1").1 :=
  ((C2_amended_only_join_checks_registry devSecret 10 3
      (connectClient 3 (revokeNode boundState "n1").1) "n1" (viewerTok "n1" "p1" 0)
      ⟨none, none, none⟩ (by rfl)).1
    (Or.inr ⟨{ nodeId := "n1", projectId := "p1", ownerToken := ownerTok "n1" "p1" 0,
               status := Status.revoked, viewerCount := 1, createdAt := 0 },
             by rfl, rfl⟩)).1

/-- C3 counterexample: the node-not-found and node-revoked failures of a join
are reported with the SAME error message.  Connection 9 joins the nonexistent
node nX and connection 3 joins the revoked node n1, both with correctly
signed viewer tokens; both receive the identical error text, refuting the
claim that the three failure causes are each distinct. -/
theorem C3_notfound_and_revoked_share_message :
    (handleMessage devSecret 5 9 (connectClient 9 initState)
        (ClientMsg.join "nX" (viewerTok "nX" "p1" 0))).2 =
      [(9, ServerMsg.error "Node not available")] ∧
    (handleMessage devSecret 10 3 (connectClient 3 (revokeNode boundState "n1").1)
        (ClientMsg.join "n1" (viewerTok "n1" "p1" 0))).2 =
      [(3, ServerMsg.error "Node not available")] := by
  exact ⟨rfl, rfl⟩

/-- C3 (amended): every failing join with a verified matching viewer token is
answered with exactly one error message (no silent drop), but only two texts
exist: node-not-found and node-revoked share the message, while capacity
exhaustion gets a distinct one. -/
theorem C3_amended_two_error_texts
    (secret : String) (now : Nat) (ws : ConnId) (st : ServerState)
    (nid : String) (tok : Token) (c : Client) (decoded : Claims)
    (hc : alookup ws st.clients = some c)
    (hv : jwtVerify secret now tok = some decoded)
    (htype : decoded.type = "viewer") (hnid : decoded.nodeId = nid) :
    (alookup nid st.nodes = none →
      (handleMessage secret now ws st (ClientMsg.join nid tok)).2 =
        [(ws, ServerMsg.error "Node not available")]) ∧
    (∀ node, alookup nid st.nodes = some node → node.status = Status.revoked →
      (handleMessage secret now ws st (ClientMsg.join nid tok)).2 =
        [(ws, ServerMsg.error "Node not available")]) ∧
    (∀ node, alookup nid st.nodes = some node → node.status ≠ Status.revoked →
      3 ≤ node.viewerCount →
      (handleMessage secret now ws st (ClientMsg.join nid tok)).2 =
        [(ws, ServerMsg.error "Max viewers reached")]) := by
  refine ⟨fun hnone => ?_, fun node hsome hrev => ?_, fun node hsome hact hcap => ?_⟩
  · rw [handleMessage_join secret now ws st nid tok hc]
    exact handleJoin_msg_missing_or_revoked secret now ws st nid tok hv htype hnid (Or.inl hnone)
  · rw [handleMessage_join secret now ws st nid tok hc]
    exact handleJoin_msg_missing_or_revoked secret now ws st nid tok hv htype hnid
      (Or.inr ⟨node, hsome, hrev⟩)
  · rw [handleMessage_join secret now ws st nid tok hc,
      handleJoin_msg_capacity secret now ws st nid tok hv htype hnid hsome hact hcap]

/-- C3 witness: the capacity branch of the amended claim at the concrete
at-capacity state; the fifth connection gets the distinct capacity error. -/
theorem C3_amended_witness :
    (handleMessage devSecret 8 5 (connectClient 5 capState)
        (ClientMsg.join "n1" (viewerTok "n1" "p1" 3))).2 =
      [(5, ServerMsg.error "Max viewers reached")] :=
  (C3_amended_two_error_texts devSecret 8 5 (connectClient 5 capState) "n1"
      (viewerTok "n1" "p1" 3) ⟨none, none, none⟩
      ⟨"viewer", "n1", "p1", 3, 3 + tokenLifetime⟩ (by rfl) (by rfl) rfl rfl).2.2
    { nodeId := "n1", projectId := "p1", ownerToken := ownerTok "n1" "p1" 0,
      status := Status.active, viewerCount := 3, createdAt := 0 }
    (by rfl) (by decide) (by decide)

/-- C4 counterexample: re-binding is silently accepted, and a second
publisher silently succeeds.  Connection 1, already bound as publisher of n1,
publishes for the freshly created node n2 and is acknowledged and re-bound
with no error; and a new connection 3 publishes for n1 (which already has
publisher 1) and is acknowledged, leaving both 1 and 3 bound as publishers of
n1.  This refutes both the rejected-re-binding and the
no-silent-second-publisher parts of the claim. -/
theorem C4_rebind_and_second_publisher_succeed :
    (handleMessage devSecret 6 1 (createNode devSecret 0 "n2" "p1" boundState).1
        (ClientMsg.publish "n2" (ownerTok "n2" "p1" 0))).2 =
      [(1, ServerMsg.connected "publisher")] ∧
    alookup 1 (handleMessage devSecret 6 1 (createNode devSecret 0 "n2" "p1" boundState).1
        (ClientMsg.publish "n2" (ownerTok "n2" "p1" 0))).1.clients =
      some ⟨some "n2", some Role.publisher, some (ownerTok "n2" "p1" 0)⟩ ∧
    (handleMessage devSecret 6 3 (connectClient 3 boundState)
        (ClientMsg.publish "n1" (ownerTok "n1" "p1" 0))).2 =
      [(3, ServerMsg.connected "publisher")] ∧
    alookup 1 (handleMessage devSecret 6 3 (connectClient 3 boundState)
        (ClientMsg.publish "n1" (ownerTok "n1" "p1" 0))).1.clients =
      some ⟨some "n1", some Role.publisher, some (ownerTok "n1" "p1" 0)⟩ ∧
    alookup 3 (handleMessage devSecret 6 3 (connectClient 3 boundState)
        (ClientMsg.publish "n1" (ownerTok "n1" "p1" 0))).1.clients =
      some ⟨some "n1", some Role.publisher, some (ownerTok "n1" "p1" 0)⟩ := by
  exact ⟨rfl, rfl, rfl, rfl, rfl⟩

/-- C4 (amended): bindings are NOT exclusive.  A publish with a verified
owner token of matching nodeId always re-binds the connection — whatever its
current binding, so in particular one already bound to some node —
acknowledging with connected(publisher) and silently overwriting the previous
binding; and when another connection is already bound as publisher of the
same node, the publish still succeeds and afterwards both connections are
bound as publishers of that node. -/
theorem C4_amended_rebinding_overwrites
    (secret : String) (now : Nat) (ws : ConnId) (st : ServerState)
    (nid : String) (tok : Token) (c : Client) (decoded : Claims)
    (hc : alookup ws st.clients = some c)
    (hv : jwtVerify secret now tok = some decoded)
    (htype : decoded.type = "owner") (hnid : decoded.nodeId = nid) :
    handleMessage secret now ws st (ClientMsg.publish nid tok) =
      ({ st with clients := aset ws ⟨some nid, some Role.publisher, some tok⟩ st.clients },
       [(ws, ServerMsg.connected "publisher")]) ∧
    (∀ ws' c', ws' ≠ ws → alookup ws' st.clients = some c' →
      c'.nodeId = some nid → c'.type = some Role.publisher →
      alookup ws (handleMessage secret now ws st (ClientMsg.publish nid tok)).1.clients =
        some ⟨some nid, some Role.publisher, some tok⟩ ∧
      alookup ws' (handleMessage secret now ws st (ClientMsg.publish nid tok)).1.clients =
        some c') := by
  have heq : handleMessage secret now ws st (ClientMsg.publish nid tok) =
      ({ st with clients := aset ws ⟨some nid, some Role.publisher, some tok⟩ st.clients },
       [(ws, ServerMsg.connected "publisher")]) := by
    rw [handleMessage_publish secret now ws st nid tok hc]
    exact handlePublish_success secret now ws st hv htype hnid
  refine ⟨heq, fun ws' c' hne hc' hnid' htype' => ?_⟩
  rw [heq]
  constructor
  · show alookup ws (aset ws _ st.clients) = _
    rw [alookup_aset]
    simp
  · show alookup ws' (aset ws _ st.clients) = _
    rw [alookup_aset, if_neg hne]
    exact hc'

/-- C4 witness: the amended claim instantiated at the concrete second
publisher: after connection 3's publish, publisher 1's binding to n1 is still
in place alongside the new one. -/
theorem C4_amended_witness :
    alookup 1 (handleMessage devSecret 6 3 (connectClient 3 boundState)
        (ClientMsg.publish "n1" (ownerTok "n1" "p1" 0))).1.clients =
      some ⟨some "n1", some Role.publisher, some (ownerTok "n1" "p1" 0)⟩ :=
  ((C4_amended_rebinding_overwrites devSecret 6 3 (connectClient 3 boundState)
      "n1" (ownerTok "n1" "p1" 0) ⟨none, none, none⟩
      ⟨"owner", "n1", "p1", 0, 0 + tokenLifetime⟩ (by rfl) (by rfl) rfl rfl).2
    1 ⟨some "n1", some Role.publisher, some (ownerTok "n1" "p1" 0)⟩
    (by decide) (by rfl) rfl rfl).2

/-- C9: token round trip.  The owner token that the create-node route signs
for (nodeId, projectId) at time `now` verifies at every instant strictly
before its expiry `now + 900` and decodes to exactly role owner with the same
nodeId; at every instant after the expiry it fails to verify.  Likewise every
viewer token the mint route issues decodes to role viewer with the same
nodeId strictly before expiry and fails after it. -/
theorem C9_token_round_trip (secret : String) (now : Nat) (nid pid : String)
    (st : ServerState) :
    (∀ t, (t < now + tokenLifetime →
        jwtVerify secret t (createNode secret now nid pid st).2 =
          some ⟨"owner", nid, pid, now, now + tokenLifetime⟩) ∧
      (now + tokenLifetime < t →
        jwtVerify secret t (createNode secret now nid pid st).2 = none)) ∧
    (∀ tok, mintViewerToken secret now st nid = MintResult.ok tok →
      ∀ t, (t < now + tokenLifetime → ∃ decoded, jwtVerify secret t tok = some decoded ∧
          decoded.type = "viewer" ∧ decoded.nodeId = nid) ∧
        (now + tokenLifetime < t → jwtVerify secret t tok = none)) := by
  constructor
  · intro t
    have hct : (createNode secret now nid pid st).2 =
        jwtSign secret ⟨"owner", nid, pid, now, now + tokenLifetime⟩ := rfl
    rw [hct, jwtVerify_jwtSign]
    constructor
    · intro hlt
      exact if_pos hlt
    · intro hgt
      refine if_neg ?_
      show ¬ t < now + tokenLifetime
      omega
  · intro tok hmint t
    have htok : ∃ pid', tok = jwtSign secret ⟨"viewer", nid, pid', now, now + tokenLifetime⟩ := by
      unfold mintViewerToken at hmint
      cases hl : alookup nid st.nodes with
      | none => simp only [hl] at hmint; exact absurd hmint (by simp)
      | some node =>
        simp only [hl] at hmint
        by_cases hrev : node.status = Status.revoked
        · rw [if_pos hrev] at hmint; exact absurd hmint (by simp)
        · rw [if_neg hrev] at hmint
          by_cases hcap : node.viewerCount ≥ 3
          · rw [if_pos hcap] at hmint; exact absurd hmint (by simp)
          · rw [if_neg hcap] at hmint
            injection hmint with h
            exact ⟨node.projectId, h.symm⟩
    obtain ⟨pid', htok⟩ := htok
    subst htok
    rw [jwtVerify_jwtSign]
    constructor
    · intro hlt
      exact ⟨_, if_pos hlt, rfl, rfl⟩
    · intro hgt
      refine if_neg ?_
      show ¬ t < now + tokenLifetime
      omega

/-- C9 witness: the round trip at concrete values — the owner token created
at time 0 verifies at time 5 and fails at time 901. -/
theorem C9_witness :
    jwtVerify "s" 5 (createNode "s" 0 "n" "p" initState).2 =
      some ⟨"owner", "n", "p", 0, 900⟩ ∧
    jwtVerify "s" 901 (createNode "s" 0 "n" "p" initState).2 = none :=
  ⟨((C9_token_round_trip "s" 0 "n" "p" initState).1 5).1 (by decide),
   ((C9_token_round_trip "s" 0 "n" "p" initState).1 901).2 (by decide)⟩

/-! ### Relay and broadcast characterization -/

theorem handleMessage_negotiation (secret : String) (now : Nat) (ws : ConnId)
    (st : ServerState) (data : ClientMsg) {c : Client}
    (hc : alookup ws st.clients = some c) (hneg : isNegotiation data = true) :
    handleMessage secret now ws st data = relayMessage ws st data := by
  cases data <;> simp_all [handleMessage, isNegotiation]

theorem broadcastTargets_some_exclude (nid : String) (r : Role) (ex : ConnId)
    (p : ConnId × Client) :
    broadcastTargets nid (some r) (some ex) p =
      decide (p.2.nodeId = some nid ∧ p.2.type = some r ∧ p.1 ≠ ex) := by
  unfold broadcastTargets
  by_cases h1 : p.2.nodeId = some nid <;> by_cases h2 : p.2.type = some r <;>
    by_cases h3 : p.1 = ex <;> simp [h1, h2, h3]

theorem broadcastTargets_some_noExclude (nid : String) (r : Role) (p : ConnId × Client) :
    broadcastTargets nid (some r) none p =
      decide (p.2.nodeId = some nid ∧ p.2.type = some r) := by
  unfold broadcastTargets
  by_cases h1 : p.2.nodeId = some nid <;> by_cases h2 : p.2.type = some r <;> simp [h1, h2]

theorem relayMessage_bound (ws : ConnId) (st : ServerState) (data : ClientMsg)
    {c : Client} {nid : String} {r : Role}
    (hc : alookup ws st.clients = some c) (hn : c.nodeId = some nid) (hr : c.type = some r) :
    relayMessage ws st data =
      (st, (st.clients.filter
          (fun p => decide (p.2.nodeId = some nid ∧ p.2.type = some (opposite r) ∧ p.1 ≠ ws))).map
        (fun p => (p.1, ServerMsg.relay data))) := by
  unfold relayMessage
  simp only [hc, hn]
  have hfilter : ∀ r', st.clients.filter (broadcastTargets nid (some r') (some ws)) =
      st.clients.filter
        (fun p => decide (p.2.nodeId = some nid ∧ p.2.type = some r' ∧ p.1 ≠ ws)) :=
    fun r' => List.filter_congr (fun p _ => broadcastTargets_some_exclude nid r' ws p)
  cases r with
  | publisher =>
    rw [if_pos hr]
    unfold broadcastToNode
    rw [hfilter Role.viewer]
    rfl
  | viewer =>
    rw [if_neg (by simp [hr])]
    unfold broadcastToNode
    rw [hfilter Role.publisher]
    rfl

theorem relayMessage_unbound (ws : ConnId) (st : ServerState) (data : ClientMsg)
    {c : Client} (hc : alookup ws st.clients = some c) (hn : c.nodeId = none) :
    relayMessage ws st data = (st, [(ws, ServerMsg.error "Not registered")]) := by
  unfold relayMessage
  simp only [hc, hn]

/-- C5: relay correctness.  For an offer, answer or ice message from a
connection with a clients entry: when the sender is bound to node nid with
role r, the server state is unchanged and the message is forwarded verbatim
to exactly the connections bound to nid with the opposite role other than the
sender (hence to no other node's connections); when the sender is unbound it
receives the not-registered error and nothing is forwarded. -/
theorem C5_relay_verbatim_to_opposite_role
    (secret : String) (now : Nat) (ws : ConnId) (st : ServerState) (data : ClientMsg)
    (c : Client) (hneg : isNegotiation data = true)
    (hc : alookup ws st.clients = some c) :
    (∀ nid r, c.nodeId = some nid → c.type = some r →
      handleMessage secret now ws st data =
        (st, (st.clients.filter
            (fun p => decide (p.2.nodeId = some nid ∧ p.2.type = some (opposite r) ∧ p.1 ≠ ws))).map
          (fun p => (p.1, ServerMsg.relay data)))) ∧
    (c.nodeId = none →
      handleMessage secret now ws st data = (st, [(ws, ServerMsg.error "Not registered")])) := by
  constructor
  · intro nid r hn hr
    rw [handleMessage_negotiation secret now ws st data hc hneg]
    exact relayMessage_bound ws st data hc hn hr
  · intro hn
    rw [handleMessage_negotiation secret now ws st data hc hneg]
    exact relayMessage_unbound ws st data hc hn

/-- C5 witness: the bound publisher of n1 sends an offer in the concrete
bound session; it is relayed verbatim to the viewers of n1 excluding the
sender, with the state untouched. -/
theorem C5_witness :
    handleMessage devSecret 9 1 boundState (ClientMsg.offer "n1" "sdp") =
      (boundState, (boundState.clients.filter
          (fun p => decide (p.2.nodeId = some "n1" ∧
            p.2.type = some (opposite Role.publisher) ∧ p.1 ≠ 1))).map
        (fun p => (p.1, ServerMsg.relay (ClientMsg.offer "n1" "sdp")))) :=
  (C5_relay_verbatim_to_opposite_role devSecret 9 1 boundState (ClientMsg.offer "n1" "sdp")
    ⟨some "n1", some Role.publisher, some (ownerTok "n1" "p1" 0)⟩ rfl (by rfl)).1
    "n1" Role.publisher rfl rfl

/-- C8: heartbeat gating.  For a heartbeat from a connection with a clients
entry: when the sender is unbound or not bound as publisher, it receives the
role error and nothing is broadcast (state unchanged); when the sender is the
bound publisher of node bnid, the state is unchanged (nothing persisted) and
the heartbeat, tagged with the server clock `now`, is sent to exactly the
connections bound to bnid with the viewer role. -/
theorem C8_heartbeat_only_from_publisher
    (secret : String) (now : Nat) (ws : ConnId) (st : ServerState)
    (nid payload : String) (c : Client)
    (hc : alookup ws st.clients = some c) :
    ((c.nodeId = none ∨ c.type ≠ some Role.publisher) →
      handleMessage secret now ws st (ClientMsg.heartbeat nid payload) =
        (st, [(ws, ServerMsg.error "Only publishers can send heartbeats")])) ∧
    (∀ bnid, c.nodeId = some bnid → c.type = some Role.publisher →
      handleMessage secret now ws st (ClientMsg.heartbeat nid payload) =
        (st, (st.clients.filter
            (fun p => decide (p.2.nodeId = some bnid ∧ p.2.type = some Role.viewer))).map
          (fun p => (p.1, ServerMsg.heartbeat bnid now payload)))) := by
  rw [handleMessage_heartbeat secret now ws st nid payload hc]
  constructor
  · intro hbad
    obtain ⟨cn, ct, ctok⟩ := c
    unfold handleHeartbeat
    rcases hbad with hn | ht
    · cases hn
      rfl
    · cases cn with
      | none => rfl
      | some bnid =>
        cases ct with
        | none => rfl
        | some r =>
          cases r with
          | publisher => exact absurd rfl ht
          | viewer => rfl
  · intro bnid hn ht
    obtain ⟨cn, ct, ctok⟩ := c
    cases hn
    cases ht
    have hred : handleHeartbeat now ws ⟨some bnid, some Role.publisher, ctok⟩ st payload =
        (st, broadcastToNode st.clients bnid (ServerMsg.heartbeat bnid now payload)
          (some Role.viewer) none) := rfl
    rw [hred]
    unfold broadcastToNode
    rw [List.filter_congr (fun p _ => broadcastTargets_some_noExclude bnid Role.viewer p)]

/-- C8 witness: the concrete bound publisher's heartbeat reaches exactly the
viewer of n1, stamped with the server clock 9, with the state unchanged. -/
theorem C8_witness :
    handleMessage devSecret 9 1 boundState (ClientMsg.heartbeat "n1" "hb") =
      (boundState, (boundState.clients.filter
          (fun p => decide (p.2.nodeId = some "n1" ∧ p.2.type = some Role.viewer))).map
        (fun p => (p.1, ServerMsg.heartbeat "n1" 9 "hb"))) :=
  (C8_heartbeat_only_from_publisher devSecret 9 1 boundState "n1" "hb"
    ⟨some "n1", some Role.publisher, some (ownerTok "n1" "p1" 0)⟩ (by rfl)).2
    "n1" rfl rfl

/-- C10: disconnect frame.  For a closing connection with a clients entry:
when it is not bound as viewer (so in particular when it is a bound
publisher), the registry is untouched, no message is sent to anyone, and only
the clients entry is removed; when it is a bound viewer of node nid and the
node exists, the node's count is decremented (floor at zero) and the new
count is sent to exactly the publisher-bound connections of nid. -/
theorem C10_publisher_close_is_silent (st : ServerState) (ws : ConnId) (c : Client)
    (hc : alookup ws st.clients = some c) :
    (c.type ≠ some Role.viewer →
      (handleDisconnect ws st).1.nodes = st.nodes ∧
      (handleDisconnect ws st).2 = [] ∧
      (handleDisconnect ws st).1.clients = aerase ws st.clients) ∧
    (∀ nid node, c.nodeId = some nid → c.type = some Role.viewer →
      alookup nid st.nodes = some node →
      handleDisconnect ws st =
        (⟨aset nid { node with viewerCount := node.viewerCount - 1 } st.nodes,
          aerase ws st.clients⟩,
         (st.clients.filter
            (fun p => decide (p.2.nodeId = some nid ∧ p.2.type = some Role.publisher))).map
          (fun p => (p.1, ServerMsg.viewerCount nid (node.viewerCount - 1))))) := by
  constructor
  · intro hnv
    obtain ⟨cn, ct, ctok⟩ := c
    unfold handleDisconnect
    simp only [hc]
    cases cn with
    | none => exact ⟨rfl, rfl, rfl⟩
    | some nid =>
      cases ct with
      | none => exact ⟨rfl, rfl, rfl⟩
      | some r =>
        cases r with
        | publisher => exact ⟨rfl, rfl, rfl⟩
        | viewer => exact absurd rfl hnv
  · intro nid node hn ht hnode
    obtain ⟨cn, ct, ctok⟩ := c
    cases hn
    cases ht
    unfold handleDisconnect
    simp only [hc, hnode]
    unfold broadcastToNode
    rw [List.filter_congr (fun p _ => broadcastTargets_some_noExclude nid Role.publisher p)]

/-- C10 witness: in the concrete bound session, closing the publisher
(connection 1) leaves the registry untouched and sends nothing. -/
theorem C10_witness :
    (handleDisconnect 1 boundState).1.nodes = boundState.nodes ∧
    (handleDisconnect 1 boundState).2 = [] ∧
    (handleDisconnect 1 boundState).1.clients = aerase 1 boundState.clients :=
  (C10_publisher_close_is_silent boundState 1
    ⟨some "n1", some Role.publisher, some (ownerTok "n1" "p1" 0)⟩ (by rfl)).1 (by decide)

/-! ### State-transition case analyses, shared by the invariant proofs -/

theorem relayMessage_state (ws : ConnId) (st : ServerState) (data : ClientMsg) :
    (relayMessage ws st data).1 = st := by
  unfold relayMessage
  cases alookup ws st.clients with
  | none => rfl
  | some client =>
    obtain ⟨cn, ct, ctok⟩ := client
    cases cn with
    | none => rfl
    | some nid => rfl

theorem handleHeartbeat_state (now : Nat) (ws : ConnId) (c : Client) (st : ServerState)
    (payload : String) : (handleHeartbeat now ws c st payload).1 = st := by
  obtain ⟨cn, ct, ctok⟩ := c
  cases cn with
  | none =>
    cases ct with
    | none => rfl
    | some r => cases r <;> rfl
  | some nid =>
    cases ct with
    | none => rfl
    | some r => cases r <;> rfl

theorem handlePublish_cases (secret : String) (now : Nat) (ws : ConnId) (st : ServerState)
    (nid : String) (tok : Token) :
    (handlePublish secret now ws st nid tok).1 = st ∨
    (handlePublish secret now ws st nid tok).1 =
      { st with clients := aset ws ⟨some nid, some Role.publisher, some tok⟩ st.clients } := by
  unfold handlePublish
  cases hv : jwtVerify secret now tok with
  | none => exact Or.inl rfl
  | some decoded =>
    simp only [hv]
    by_cases hm : decoded.type = "owner" ∧ decoded.nodeId = nid
    · rw [if_pos hm]
      exact Or.inr rfl
    · rw [if_neg hm]
      exact Or.inl rfl

theorem handleJoin_cases (secret : String) (now : Nat) (ws : ConnId) (st : ServerState)
    (nid : String) (tok : Token) :
    (handleJoin secret now ws st nid tok).1 = st ∨
    ∃ node, alookup nid st.nodes = some node ∧ node.status ≠ Status.revoked ∧
      node.viewerCount < 3 ∧
      (handleJoin secret now ws st nid tok).1 =
        ⟨aset nid { node with viewerCount := node.viewerCount + 1 } st.nodes,
         aset ws ⟨some nid, some Role.viewer, some tok⟩ st.clients⟩ := by
  unfold handleJoin
  split
  next decoded hv =>
    split
    next hm =>
      split
      next hl => exact Or.inl rfl
      next node hl =>
        split
        next hrev => exact Or.inl rfl
        next hrev =>
          split
          next hcap => exact Or.inl rfl
          next hcap => exact Or.inr ⟨node, hl, hrev, by omega, rfl⟩
    next hm => exact Or.inl rfl
  next hv => exact Or.inl rfl

theorem handleMessage_state_cases (secret : String) (now : Nat) (ws : ConnId)
    (st : ServerState) (data : ClientMsg) :
    (handleMessage secret now ws st data).1 = st ∨
    (∃ nid tok, data = ClientMsg.publish nid tok ∧
      (∃ c, alookup ws st.clients = some c) ∧
      (handleMessage secret now ws st data).1 =
        { st with clients := aset ws ⟨some nid, some Role.publisher, some tok⟩ st.clients }) ∨
    (∃ nid tok node, data = ClientMsg.join nid tok ∧
      alookup nid st.nodes = some node ∧ node.status ≠ Status.revoked ∧
      node.viewerCount < 3 ∧ (∃ c, alookup ws st.clients = some c) ∧
      (handleMessage secret now ws st data).1 =
        ⟨aset nid { node with viewerCount := node.viewerCount + 1 } st.nodes,
         aset ws ⟨some nid, some Role.viewer, some tok⟩ st.clients⟩) := by
  unfold handleMessage
  cases hcl : alookup ws st.clients with
  | none => exact Or.inl rfl
  | some c =>
    cases data with
    | publish nid tok =>
      rcases handlePublish_cases secret now ws st nid tok with h | h
      · exact Or.inl h
      · exact Or.inr (Or.inl ⟨nid, tok, rfl, ⟨c, rfl⟩, h⟩)
    | join nid tok =>
      rcases handleJoin_cases secret now ws st nid tok with h | ⟨node, h1, h2, h3, h4⟩
      · exact Or.inl h
      · exact Or.inr (Or.inr ⟨nid, tok, node, rfl, h1, h2, h3, ⟨c, rfl⟩, h4⟩)
    | offer nid payload => exact Or.inl (relayMessage_state ws st _)
    | answer nid payload => exact Or.inl (relayMessage_state ws st _)
    | ice nid payload => exact Or.inl (relayMessage_state ws st _)
    | ping => exact Or.inl rfl
    | heartbeat nid payload => exact Or.inl (handleHeartbeat_state now ws c st payload)

theorem handleDisconnect_none (ws : ConnId) (st : ServerState)
    (hcl : alookup ws st.clients = none) :
    (handleDisconnect ws st).1 = { st with clients := aerase ws st.clients } := by
  unfold handleDisconnect
  simp only [hcl]

theorem handleDisconnect_unbound (ws : ConnId) (st : ServerState) {ct : Option Role}
    {ctok : Option Token}
    (hcl : alookup ws st.clients = some ⟨none, ct, ctok⟩) :
    (handleDisconnect ws st).1 = { st with clients := aerase ws st.clients } := by
  unfold handleDisconnect
  simp only [hcl]

theorem handleDisconnect_nonviewer (ws : ConnId) (st : ServerState) {c : Client}
    (hcl : alookup ws st.clients = some c) (h : c.type ≠ some Role.viewer) :
    (handleDisconnect ws st).1 = { st with clients := aerase ws st.clients } := by
  obtain ⟨cn, ct, ctok⟩ := c
  unfold handleDisconnect
  simp only [hcl]
  cases cn with
  | none =>
    cases ct with
    | none => rfl
    | some r =>
      cases r with
      | publisher => rfl
      | viewer => exact absurd rfl h
  | some nid =>
    cases ct with
    | none => rfl
    | some r =>
      cases r with
      | publisher => rfl
      | viewer => exact absurd rfl h

theorem handleDisconnect_viewer_nonode (ws : ConnId) (st : ServerState) {nid : String}
    {ctok : Option Token}
    (hcl : alookup ws st.clients = some ⟨some nid, some Role.viewer, ctok⟩)
    (hn : alookup nid st.nodes = none) :
    (handleDisconnect ws st).1 = { st with clients := aerase ws st.clients } := by
  unfold handleDisconnect
  simp only [hcl, hn]

theorem handleDisconnect_viewer (ws : ConnId) (st : ServerState) {nid : String}
    {ctok : Option Token} {node : Node}
    (hcl : alookup ws st.clients = some ⟨some nid, some Role.viewer, ctok⟩)
    (hn : alookup nid st.nodes = some node) :
    (handleDisconnect ws st).1 =
      ⟨aset nid { node with viewerCount := node.viewerCount - 1 } st.nodes,
       aerase ws st.clients⟩ := by
  unfold handleDisconnect
  simp only [hcl, hn]

theorem handleDisconnect_cases (ws : ConnId) (st : ServerState) :
    ((handleDisconnect ws st).1 = { st with clients := aerase ws st.clients } ∧
      (alookup ws st.clients = none ∨
       ∃ c, alookup ws st.clients = some c ∧
         (c.nodeId = none ∨ c.type ≠ some Role.viewer ∨
          ∃ nid, c.nodeId = some nid ∧ alookup nid st.nodes = none))) ∨
    (∃ c nid node, alookup ws st.clients = some c ∧ c.nodeId = some nid ∧
      c.type = some Role.viewer ∧ alookup nid st.nodes = some node ∧
      (handleDisconnect ws st).1 =
        ⟨aset nid { node with viewerCount := node.viewerCount - 1 } st.nodes,
         aerase ws st.clients⟩) := by
  cases hcl : alookup ws st.clients with
  | none => exact Or.inl ⟨handleDisconnect_none ws st hcl, Or.inl rfl⟩
  | some c =>
    obtain ⟨cn, ct, ctok⟩ := c
    by_cases hv : cn = none ∨ ct ≠ some Role.viewer
    · refine Or.inl ⟨?_, Or.inr ⟨_, rfl, ?_⟩⟩
      · rcases hv with hv | hv
        · subst hv
          exact handleDisconnect_unbound ws st hcl
        · exact handleDisconnect_nonviewer ws st hcl hv
      · rcases hv with hv | hv
        · exact Or.inl hv
        · exact Or.inr (Or.inl hv)
    · push_neg at hv
      obtain ⟨hcn, hct⟩ := hv
      obtain ⟨nid, rfl⟩ : ∃ nid, cn = some nid := by
        cases cn with
        | none => exact absurd rfl hcn
        | some nid => exact ⟨nid, rfl⟩
      subst hct
      cases hn : alookup nid st.nodes with
      | none =>
        exact Or.inl ⟨handleDisconnect_viewer_nonode ws st hcl hn,
          Or.inr ⟨_, rfl, Or.inr (Or.inr ⟨nid, rfl, hn⟩)⟩⟩
      | some node =>
        exact Or.inr ⟨_, nid, node, rfl, rfl, rfl, hn,
          handleDisconnect_viewer ws st hcl hn⟩

/-! ### C6: the viewer-capacity invariant -/

theorem capOk_of_aset {nodes : List (String × Node)} {nid : String} {node : Node}
    (h : ∀ n nd, alookup n nodes = some nd → nd.viewerCount ≤ 3)
    (hcnt : node.viewerCount ≤ 3) :
    ∀ n nd, alookup n (aset nid node nodes) = some nd → nd.viewerCount ≤ 3 := by
  intro n nd hl
  rw [alookup_aset] at hl
  by_cases hn : n = nid
  · rw [if_pos hn] at hl
    cases hl
    exact hcnt
  · rw [if_neg hn] at hl
    exact h n nd hl

theorem capOk_step (secret : String) (st : ServerState) (e : Event) (h : CapOk st) :
    CapOk (stepEv secret st e) := by
  cases e with
  | connect ws => exact h
  | message now ws data =>
    show CapOk (handleMessage secret now ws st data).1
    rcases handleMessage_state_cases secret now ws st data with
      heq | ⟨nid, tok, _, _, heq⟩ | ⟨nid, tok, node, _, hl, _, hcap, _, heq⟩
    · rw [heq]; exact h
    · rw [heq]; exact h
    · rw [heq]
      intro n nd hld
      refine capOk_of_aset h ?_ n nd hld
      show node.viewerCount + 1 ≤ 3
      omega
  | close ws =>
    show CapOk (handleDisconnect ws st).1
    rcases handleDisconnect_cases ws st with ⟨heq, _⟩ | ⟨c, nid, node, _, _, _, hl, heq⟩
    · rw [heq]; exact h
    · rw [heq]
      intro n nd hld
      refine capOk_of_aset h ?_ n nd hld
      show node.viewerCount - 1 ≤ 3
      have := h nid node hl
      omega
  | httpCreate now nid pid =>
    show CapOk (createNode secret now nid pid st).1
    intro n nd hld
    refine capOk_of_aset h ?_ n nd hld
    show (0 : Nat) ≤ 3
    omega
  | httpRevoke nid =>
    show CapOk (revokeNode st nid).1
    cases hl : alookup nid st.nodes with
    | none =>
      have heq : (revokeNode st nid).1 = st := by
        unfold revokeNode
        rw [hl]
      rw [heq]
      exact h
    | some node =>
      have heq : (revokeNode st nid).1 =
          ⟨aset nid { node with status := Status.revoked } st.nodes, st.clients⟩ := by
        unfold revokeNode
        rw [hl]
      rw [heq]
      intro n nd hld
      refine capOk_of_aset h ?_ n nd hld
      show node.viewerCount ≤ 3
      exact h nid node hl

theorem capOk_run (secret : String) (trace : List Event) (st : ServerState) (h : CapOk st) :
    CapOk (runEvents secret st trace) := by
  induction trace generalizing st with
  | nil => exact h
  | cons e rest ih => exact ih _ (capOk_step secret st e h)

/-- C6: viewer capacity.  In every state reachable by any event sequence from
the empty state, every node's viewerCount is at most 3 (it is a Nat, hence
also at least 0, mirroring the Math.max floor).  Concretely: on a fresh
active node, three viewer joins are each acknowledged connected(viewer), the
fourth attempt is rejected with the capacity error and the count stays 3, and
a viewer disconnect at count 0 leaves the count at 0 rather than driving it
negative. -/
theorem C6_viewer_capacity :
    (∀ secret trace nid node,
      alookup nid (runEvents secret initState trace).nodes = some node →
      node.viewerCount ≤ 3) ∧
    (handleMessage devSecret 5 2 preJoin1
        (ClientMsg.join "n1" (viewerTok "n1" "p1" 0))).2.head? =
      some (2, ServerMsg.connected "viewer") ∧
    (handleMessage devSecret 6 3 preJoin2
        (ClientMsg.join "n1" (viewerTok "n1" "p1" 1))).2.head? =
      some (3, ServerMsg.connected "viewer") ∧
    (handleMessage devSecret 7 4 preJoin3
        (ClientMsg.join "n1" (viewerTok "n1" "p1" 2))).2.head? =
      some (4, ServerMsg.connected "viewer") ∧
    (handleMessage devSecret 8 5 (connectClient 5 capState)
        (ClientMsg.join "n1" (viewerTok "n1" "p1" 3))).2 =
      [(5, ServerMsg.error "Max viewers reached")] ∧
    alookup "n1" (handleMessage devSecret 8 5 (connectClient 5 capState)
        (ClientMsg.join "n1" (viewerTok "n1" "p1" 3))).1.nodes =
      some { nodeId := "n1", projectId := "p1", ownerToken := ownerTok "n1" "p1" 0,
             status := Status.active, viewerCount := 3, createdAt := 0 } ∧
    alookup "z" (handleDisconnect 8 zeroState).1.nodes =
      some { nodeId := "z", projectId := "p", ownerToken := ownerTok "z" "p" 0,
             status := Status.active, viewerCount := 0, createdAt := 0 } := by
  refine ⟨?_, rfl, rfl, rfl, rfl, rfl, rfl⟩
  intro secret trace nid node h
  refine capOk_run secret trace initState ?_ nid node h
  intro n nd hl
  simp [initState, alookup] at hl

/-- C6 witness: the general bound applied to the node of the concrete
at-capacity trace. -/
theorem C6_witness :
    ({ nodeId := "n1", projectId := "p1", ownerToken := ownerTok "n1" "p1" 0,
       status := Status.active, viewerCount := 3, createdAt := 0 } : Node).viewerCount ≤ 3 :=
  C6_viewer_capacity.1 devSecret capTrace "n1" _ (by rfl)

/-! ### C7: viewerCount versus the bound viewer connections -/

/-- C7 counterexample: after create, publish, join and a repeated join from
the same connection — a sequence of exactly the operations the claim
quantifies over — node n1's viewerCount is 2 while only one connection is
bound to n1 with the viewer role, refuting the claimed equality. -/
theorem C7_count_exceeds_bound_viewers :
    alookup "n1" doubleJoinState.nodes =
      some { nodeId := "n1", projectId := "p1", ownerToken := ownerTok "n1" "p1" 0,
             status := Status.active, viewerCount := 2, createdAt := 0 } ∧
    countViewers doubleJoinState.clients "n1" = 1 := by
  exact ⟨rfl, rfl⟩

theorem isViewerOf_eq_true {nid : String} {p : ConnId × Client}
    (hn : p.2.nodeId = some nid) (ht : p.2.type = some Role.viewer) :
    isViewerOf nid p = true :=
  decide_eq_true ⟨hn, ht⟩

theorem isViewerOf_eq_false_of_unbound {nid : String} {p : ConnId × Client}
    (hn : p.2.nodeId = none) : isViewerOf nid p = false :=
  decide_eq_false (fun h => by rw [hn] at h; exact Option.noConfusion h.1)

theorem isViewerOf_eq_false_of_not_viewer {nid : String} {p : ConnId × Client}
    (ht : p.2.type ≠ some Role.viewer) : isViewerOf nid p = false :=
  decide_eq_false (fun h => ht h.2)

theorem isViewerOf_eq_false_of_ne {nidT nidOf : String} {p : ConnId × Client}
    (hn : p.2.nodeId = some nidOf) (hne : nidOf ≠ nidT) : isViewerOf nidT p = false :=
  decide_eq_false (fun h => by
    rw [hn] at h
    exact hne (Option.some_inj.mp h.1))

theorem countViewers_aset {clients : List (ConnId × Client)} {ws : ConnId} {c : Client}
    (cNew : Client) (nid : String) (h : alookup ws clients = some c) :
    countViewers (aset ws cNew clients) nid + (if isViewerOf nid (ws, c) then 1 else 0) =
      countViewers clients nid + (if isViewerOf nid (ws, cNew) then 1 else 0) :=
  countP_aset cNew (isViewerOf nid) h

theorem countViewers_aset_fresh {clients : List (ConnId × Client)} {ws : ConnId}
    (cNew : Client) (nid : String) (h : alookup ws clients = none) :
    countViewers (aset ws cNew clients) nid =
      countViewers clients nid + (if isViewerOf nid (ws, cNew) then 1 else 0) := by
  unfold countViewers
  rw [aset_eq_append cNew h, List.countP_append]
  simp [List.countP_cons]

theorem syncInv_step (secret : String) (st : ServerState) (e : Event)
    (inv : SyncInv st) (hok : okEvent st e) : SyncInv (stepEv secret st e) := by
  cases e with
  | connect ws =>
    show SyncInv ⟨st.nodes, aset ws ⟨none, none, none⟩ st.clients⟩
    have hfresh : alookup ws st.clients = none := hok
    refine ⟨nodupKeys_aset _ _ inv.clientsNodup, inv.nodesNodup, ?_, ?_⟩
    · intro ws' c' nid' hl' hn' ht'
      rw [alookup_aset] at hl'
      by_cases hws : ws' = ws
      · rw [if_pos hws] at hl'
        cases hl'
        exact Option.noConfusion hn'
      · rw [if_neg hws] at hl'
        exact inv.viewerHasNode ws' c' nid' hl' hn' ht'
    · intro nid' node' hl'
      rw [countViewers_aset_fresh _ nid' hfresh,
        isViewerOf_eq_false_of_unbound (p := (ws, ⟨none, none, none⟩)) rfl]
      simpa using inv.countSync nid' node' hl'
  | message now ws data =>
    show SyncInv (handleMessage secret now ws st data).1
    rcases handleMessage_state_cases secret now ws st data with
      heq | ⟨nid, tok, hdata, hcex, heq⟩ | ⟨nid, tok, node, hdata, hl, hrev, hcap, hcex, heq⟩
    · rw [heq]
      exact inv
    · obtain ⟨c, hc⟩ := hcex
      subst hdata
      have hub : c.nodeId = none := hok c hc
      rw [heq]
      show SyncInv ⟨st.nodes, aset ws ⟨some nid, some Role.publisher, some tok⟩ st.clients⟩
      refine ⟨nodupKeys_aset _ _ inv.clientsNodup, inv.nodesNodup, ?_, ?_⟩
      · intro ws' c' nid' hl' hn' ht'
        rw [alookup_aset] at hl'
        by_cases hws : ws' = ws
        · rw [if_pos hws] at hl'
          cases hl'
          exact Role.noConfusion (Option.some_inj.mp ht')
        · rw [if_neg hws] at hl'
          exact inv.viewerHasNode ws' c' nid' hl' hn' ht'
      · intro nid' node' hl'
        have hcnt := countViewers_aset (⟨some nid, some Role.publisher, some tok⟩ : Client) nid' hc
        rw [isViewerOf_eq_false_of_unbound hub,
          isViewerOf_eq_false_of_not_viewer
            (p := (ws, (⟨some nid, some Role.publisher, some tok⟩ : Client)))
            (by intro h; exact Role.noConfusion (Option.some_inj.mp h))] at hcnt
        simp only [if_neg Bool.false_ne_true, Nat.add_zero] at hcnt
        rw [hcnt]
        exact inv.countSync nid' node' hl'
    · obtain ⟨c, hc⟩ := hcex
      subst hdata
      have hub : c.nodeId = none := hok c hc
      rw [heq]
      show SyncInv ⟨aset nid { node with viewerCount := node.viewerCount + 1 } st.nodes,
        aset ws ⟨some nid, some Role.viewer, some tok⟩ st.clients⟩
      refine ⟨nodupKeys_aset _ _ inv.clientsNodup, nodupKeys_aset _ _ inv.nodesNodup, ?_, ?_⟩
      · intro ws' c' nid' hl' hn' ht'
        rw [alookup_aset] at hl'
        by_cases hws : ws' = ws
        · rw [if_pos hws] at hl'
          cases hl'
          have hnn : nid' = nid := (Option.some_inj.mp hn').symm
          subst hnn
          exact ⟨_, by rw [alookup_aset, if_pos rfl]⟩
        · rw [if_neg hws] at hl'
          obtain ⟨node'', hnode''⟩ := inv.viewerHasNode ws' c' nid' hl' hn' ht'
          by_cases hnid : nid' = nid
          · subst hnid
            exact ⟨_, by rw [alookup_aset, if_pos rfl]⟩
          · exact ⟨node'', by rw [alookup_aset, if_neg hnid]; exact hnode''⟩
      · intro nid' node' hl'
        rw [alookup_aset] at hl'
        have hcnt := countViewers_aset (⟨some nid, some Role.viewer, some tok⟩ : Client) nid' hc
        rw [isViewerOf_eq_false_of_unbound hub] at hcnt
        by_cases hnid : nid' = nid
        · subst hnid
          rw [if_pos rfl] at hl'
          cases hl'
          rw [isViewerOf_eq_true
            (p := (ws, (⟨some nid', some Role.viewer, some tok⟩ : Client))) rfl rfl] at hcnt
          simp at hcnt
          show node.viewerCount + 1 = countViewers
            (aset ws ⟨some nid', some Role.viewer, some tok⟩ st.clients) nid'
          have hsync := inv.countSync nid' node hl
          omega
        · rw [if_neg hnid] at hl'
          rw [isViewerOf_eq_false_of_ne
            (p := (ws, (⟨some nid, some Role.viewer, some tok⟩ : Client))) rfl
            (fun hEq => hnid hEq.symm)] at hcnt
          simp only [if_neg Bool.false_ne_true, Nat.add_zero] at hcnt
          rw [hcnt]
          exact inv.countSync nid' node' hl'
  | close ws =>
    show SyncInv (handleDisconnect ws st).1
    rcases handleDisconnect_cases ws st with ⟨heq, hdetail⟩ | ⟨c, nid, node, hc, hn, ht, hnode, heq⟩
    · rw [heq]
      show SyncInv ⟨st.nodes, aerase ws st.clients⟩
      refine ⟨nodupKeys_aerase _ inv.clientsNodup, inv.nodesNodup, ?_, ?_⟩
      · intro ws' c' nid' hl' hn' ht'
        rw [alookup_aerase _ _ inv.clientsNodup] at hl'
        by_cases hws : ws' = ws
        · rw [if_pos hws] at hl'
          exact Option.noConfusion hl'
        · rw [if_neg hws] at hl'
          exact inv.viewerHasNode ws' c' nid' hl' hn' ht'
      · intro nid' node' hl'
        rcases hdetail with hnone | ⟨c, hc, hcase⟩
        · rw [aerase_eq_self hnone]
          exact inv.countSync nid' node' hl'
        · have hcnt := countP_aerase (isViewerOf nid') hc
          have hfalse : isViewerOf nid' (ws, c) = false := by
            rcases hcase with h | h | ⟨nid0, hn0, hnode0⟩
            · exact isViewerOf_eq_false_of_unbound h
            · exact isViewerOf_eq_false_of_not_viewer h
            · refine isViewerOf_eq_false_of_ne hn0 ?_
              intro hEq
              rw [hEq, hl'] at hnode0
              exact Option.noConfusion hnode0
          rw [hfalse] at hcnt
          simp only [if_neg Bool.false_ne_true, Nat.add_zero] at hcnt
          show node'.viewerCount = countViewers (aerase ws st.clients) nid'
          rw [show countViewers (aerase ws st.clients) nid' =
            (aerase ws st.clients).countP (isViewerOf nid') from rfl, hcnt]
          exact inv.countSync nid' node' hl'
    · rw [heq]
      show SyncInv ⟨aset nid { node with viewerCount := node.viewerCount - 1 } st.nodes,
        aerase ws st.clients⟩
      refine ⟨nodupKeys_aerase _ inv.clientsNodup, nodupKeys_aset _ _ inv.nodesNodup, ?_, ?_⟩
      · intro ws' c' nid' hl' hn' ht'
        rw [alookup_aerase _ _ inv.clientsNodup] at hl'
        by_cases hws : ws' = ws
        · rw [if_pos hws] at hl'
          exact Option.noConfusion hl'
        · rw [if_neg hws] at hl'
          obtain ⟨node'', hnode''⟩ := inv.viewerHasNode ws' c' nid' hl' hn' ht'
          by_cases hnid : nid' = nid
          · subst hnid
            exact ⟨_, by rw [alookup_aset, if_pos rfl]⟩
          · exact ⟨node'', by rw [alookup_aset, if_neg hnid]; exact hnode''⟩
      · intro nid' node' hl'
        rw [alookup_aset] at hl'
        have hcnt := countP_aerase (isViewerOf nid') hc
        by_cases hnid : nid' = nid
        · subst hnid
          rw [if_pos rfl] at hl'
          cases hl'
          rw [isViewerOf_eq_true hn ht] at hcnt
          rw [if_pos rfl] at hcnt
          show node.viewerCount - 1 = countViewers (aerase ws st.clients) nid'
          have hsync := inv.countSync nid' node hnode
          have hcnt' : countViewers (aerase ws st.clients) nid' + 1 =
              countViewers st.clients nid' := hcnt
          omega
        · rw [if_neg hnid] at hl'
          rw [isViewerOf_eq_false_of_ne hn (fun hEq => hnid hEq.symm)] at hcnt
          simp only [if_neg Bool.false_ne_true, Nat.add_zero] at hcnt
          show node'.viewerCount = countViewers (aerase ws st.clients) nid'
          rw [show countViewers (aerase ws st.clients) nid' =
            (aerase ws st.clients).countP (isViewerOf nid') from rfl, hcnt]
          exact inv.countSync nid' node' hl'
  | httpCreate now nid pid =>
    have hfresh : alookup nid st.nodes = none := hok
    show SyncInv ⟨aset nid ⟨nid, pid,
      jwtSign secret ⟨"owner", nid, pid, now, now + tokenLifetime⟩,
      Status.active, 0, now⟩ st.nodes, st.clients⟩
    refine ⟨inv.clientsNodup, nodupKeys_aset _ _ inv.nodesNodup, ?_, ?_⟩
    · intro ws' c' nid' hl' hn' ht'
      obtain ⟨node'', hnode''⟩ := inv.viewerHasNode ws' c' nid' hl' hn' ht'
      by_cases hnid : nid' = nid
      · subst hnid
        exact ⟨_, by rw [alookup_aset, if_pos rfl]⟩
      · exact ⟨node'', by rw [alookup_aset, if_neg hnid]; exact hnode''⟩
    · intro nid' node' hl'
      rw [alookup_aset] at hl'
      by_cases hnid : nid' = nid
      · subst hnid
        rw [if_pos rfl] at hl'
        cases hl'
        show (0 : Nat) = countViewers st.clients nid'
        symm
        refine List.countP_eq_zero.mpr ?_
        intro p hp hview
        have hview' := of_decide_eq_true hview
        have hlook := alookup_of_mem inv.clientsNodup (by
          show (p.1, p.2) ∈ st.clients
          simpa using hp)
        obtain ⟨node'', hnode''⟩ :=
          inv.viewerHasNode p.1 p.2 nid' hlook hview'.1 hview'.2
        rw [hfresh] at hnode''
        exact Option.noConfusion hnode''
      · rw [if_neg hnid] at hl'
        exact inv.countSync nid' node' hl'
  | httpRevoke nid =>
    show SyncInv (revokeNode st nid).1
    cases hl : alookup nid st.nodes with
    | none =>
      have heq : (revokeNode st nid).1 = st := by
        unfold revokeNode
        rw [hl]
      rw [heq]
      exact inv
    | some node =>
      have heq : (revokeNode st nid).1 =
          ⟨aset nid { node with status := Status.revoked } st.nodes, st.clients⟩ := by
        unfold revokeNode
        rw [hl]
      rw [heq]
      refine ⟨inv.clientsNodup, nodupKeys_aset _ _ inv.nodesNodup, ?_, ?_⟩
      · intro ws' c' nid' hl' hn' ht'
        obtain ⟨node'', hnode''⟩ := inv.viewerHasNode ws' c' nid' hl' hn' ht'
        by_cases hnid : nid' = nid
        · subst hnid
          exact ⟨_, by rw [alookup_aset, if_pos rfl]⟩
        · exact ⟨node'', by rw [alookup_aset, if_neg hnid]; exact hnode''⟩
      · intro nid' node' hl'
        rw [alookup_aset] at hl'
        by_cases hnid : nid' = nid
        · subst hnid
          rw [if_pos rfl] at hl'
          cases hl'
          show node.viewerCount = countViewers st.clients nid'
          exact inv.countSync nid' node hl
        · rw [if_neg hnid] at hl'
          exact inv.countSync nid' node' hl'

theorem syncInv_reachable (secret : String) (st : ServerState)
    (h : ReachableOk secret st) : SyncInv st := by
  induction h with
  | base =>
    refine ⟨by simp [initState], by simp [initState], ?_, ?_⟩
    · intro ws c nid hl
      exact absurd hl (by simp [initState, alookup])
    · intro nid node hl
      exact absurd hl (by simp [initState, alookup])
  | step st e h hok ih => exact syncInv_step secret st e ih hok

/-- C7 (amended): the count equals the number of bound viewer connections in
every state reachable from the empty state under the transport discipline —
sockets have fresh identities, publish and join are only sent on connections
that are not yet bound, and node ids are fresh.  (Without the no-re-binding
restriction the equality fails, as the counterexample shows: a bound viewer's
second join increments the count without adding a viewer connection.) -/
theorem C7_amended_count_matches_bound_viewers (secret : String) (st : ServerState)
    (h : ReachableOk secret st) :
    ∀ nid node, alookup nid st.nodes = some node →
      node.viewerCount = countViewers st.clients nid :=
  (syncInv_reachable secret st h).countSync

/-- C7 witness: the amended claim applied to the state after one disciplined
create-node event; the fresh node's count 0 equals its zero bound viewers. -/
theorem C7_witness :
    ({ nodeId := "n", projectId := "p",
       ownerToken := jwtSign devSecret ⟨"owner", "n", "p", 0, 900⟩,
       status := Status.active, viewerCount := 0, createdAt := 0 } : Node).viewerCount =
      countViewers (stepEv devSecret initState (Event.httpCreate 0 "n" "p")).clients "n" :=
  C7_amended_count_matches_bound_viewers devSecret _
    (ReachableOk.step initState (Event.httpCreate 0 "n" "p") ReachableOk.base (by rfl))
    "n" _ (by rfl)

end Clawnvas
